import Mathlib

/-!
Shallow embedding of the BadgerSwap chat layer (`features/chat/api.ts` and
`features/chat/useMessageNotifications.ts`).

Firestore documents are modelled as Lean structures; string-keyed maps
(`unread`, `reactions`) as association lists with the JS-object update
semantics (replace the binding if the key is present, append otherwise);
`serverTimestamp()` / `Date.now()` as explicit `Nat` parameters; optional /
possibly-`null` TS fields as `Option`.  Every async store operation becomes a
pure state-transformer on the relevant documents.
-/

namespace BadgerSwap

/-! ### String-keyed maps (JS objects / Firestore map fields) -/

/-- Lookup in a JS-object-like association map (`obj[k]`, `undefined` ↦ `none`). -/
def getKey {α : Type} (m : List (String × α)) (k : String) : Option α :=
  match m with
  | [] => none
  | (k', v) :: rest => if k' = k then some v else getKey rest k

/-- Lookup with a default, modelling `obj?.[k] ?? d` and `obj?.[k] || 0`. -/
def getKeyD {α : Type} (m : List (String × α)) (k : String) (d : α) : α :=
  (getKey m k).getD d

/-- JS-object single-key assignment / Firestore nested-field update
(`update({ ["f." + k]: v })`): replaces the first binding of `k`, or appends a
new binding when `k` is absent. -/
def setKey {α : Type} (m : List (String × α)) (k : String) (v : α) :
    List (String × α) :=
  match m with
  | [] => [(k, v)]
  | (k', v') :: rest => if k' = k then (k, v) :: rest else (k', v') :: setKey rest k v

/-! ### Data model: `ChatMessage` and `ChatThread` documents -/

/-- A message document in the `messages` subcollection
(interface `ChatMessage` in `api.ts`).  TS optional fields are `Option`;
`reactions` maps a user id to a reaction token or `null` (`Option String`). -/
structure ChatMessage where
  senderId : String
  text : Option String := none
  createdAt : Option Nat := none
  photoUrl : Option String := none
  reactions : List (String × Option String) := []
  withdrawn : Bool := false
  type : Option String := none
  amount : Option Int := none
  offerStatus : Option String := none
  deriving Repr, DecidableEq

/-- A thread document in the `chats` collection (interface `ChatThread`). -/
structure ChatThread where
  threadId : String
  itemId : String
  itemName : String
  participants : List String
  buyerId : String
  sellerId : String
  buyerName : String
  sellerName : String
  buyerInitials : String
  sellerInitials : String
  lastMessage : String
  timestamp : Nat
  unread : List (String × Nat)
  acceptedOffer : Option (String × Int × Nat) := none
  deriving Repr, DecidableEq

/-- The slice of the store one chat operation touches: the thread document
(`none` when the document does not exist) and its ordered message log. -/
structure ThreadState where
  thread : Option ChatThread
  messages : List ChatMessage
  deriving Repr, DecidableEq

/-! ### Thread identity -/

/-- `makeThreadId(buyerId, sellerId)`: the lexicographically smaller id, an
underscore, then the larger id. -/
def makeThreadId (buyerId sellerId : String) : String :=
  let a := if buyerId < sellerId then buyerId else sellerId
  let b := if buyerId < sellerId then sellerId else buyerId
  a ++ "_" ++ b

/-! ### Sending messages and offers -/

/-- JS `String.prototype.trim`: strip leading and trailing whitespace.
Modelled directly on the character list so that it evaluates inside the
kernel. -/
def jsTrim (s : String) : String :=
  ⟨((s.data.dropWhile Char.isWhitespace).reverse.dropWhile
      Char.isWhitespace).reverse⟩

/-- Recipient resolution shared by `sendMessage` / `sendPhoto` / `sendOffer`:
`const other = recipientId || data.participants.find(p => p !== senderId); if (!other) return;`.
JS truthiness: an explicit but empty `recipientId` falls through to the
participant search, and an empty result is rejected. -/
def resolveOther (recipientId : Option String) (participants : List String)
    (senderId : String) : Option String :=
  let cand :=
    match recipientId with
    | some r => if r = "" then participants.find? (fun p => p != senderId) else some r
    | none => participants.find? (fun p => p != senderId)
  match cand with
  | some o => if o = "" then none else some o
  | none => none

/-- `sendMessage(threadId, senderId, text, recipientId?)`: no-op on
whitespace-only text, a missing thread document, or an unresolvable
recipient; otherwise appends a text message and updates the thread's
preview, timestamp and the recipient's unread counter. -/
def sendMessage (st : ThreadState) (senderId text : String)
    (recipientId : Option String) (now : Nat) : ThreadState :=
  if jsTrim text = "" then st
  else
    match st.thread with
    | none => st
    | some data =>
      match resolveOther recipientId data.participants senderId with
      | none => st
      | some other =>
        { thread := some { data with
            lastMessage := text,
            timestamp := now,
            unread := setKey data.unread other (getKeyD data.unread other 0 + 1) },
          messages := st.messages ++
            [{ senderId := senderId, text := some text, createdAt := some now,
               withdrawn := false }] }

/-- `sendOffer(threadId, senderId, amount, recipientId?)`: appends a pending
offer message and updates the thread's preview (`"Offer: $<amount>"`),
timestamp and the recipient's unread counter.  The source performs no
validation of `amount`. -/
def sendOffer (st : ThreadState) (senderId : String) (amount : Int)
    (recipientId : Option String) (now : Nat) : ThreadState :=
  match st.thread with
  | none => st
  | some data =>
    match resolveOther recipientId data.participants senderId with
    | none => st
    | some other =>
      { thread := some { data with
          lastMessage := "Offer: $" ++ toString amount,
          timestamp := now,
          unread := setKey data.unread other (getKeyD data.unread other 0 + 1) },
        messages := st.messages ++
          [{ senderId := senderId, type := some "offer", amount := some amount,
             offerStatus := some "pending", createdAt := some now,
             withdrawn := false }] }

/-- `updateAt l i f`: apply `f` to the element at position `i` (the message
addressed by `messageId`), leaving the list unchanged when `i` is out of
range.  Positions play the role of Firestore document ids in the log. -/
def updateAt {α : Type} (l : List α) (i : Nat) (f : α → α) : List α :=
  match l, i with
  | [], _ => []
  | x :: xs, 0 => f x :: xs
  | x :: xs, n + 1 => x :: updateAt xs n f

/-- `acceptOffer(threadId, messageId, buyerId, amount)`: unconditionally sets
the message's `offerStatus` to `"accepted"`, then records `acceptedOffer` and
the preview `"Offer accepted ($<amount>)"` on the thread. -/
def acceptOffer (st : ThreadState) (messageId : Nat) (buyerId : String)
    (amount : Int) (now : Nat) : ThreadState :=
  { messages := updateAt st.messages messageId
      (fun m => { m with offerStatus := some "accepted" }),
    thread := st.thread.map (fun d => { d with
      acceptedOffer := some (buyerId, amount, now),
      lastMessage := "Offer accepted ($" ++ toString amount ++ ")",
      timestamp := now }) }

/-- `declineOffer(threadId, messageId)`: unconditionally sets the message's
`offerStatus` to `"declined"`; the thread document is untouched. -/
def declineOffer (st : ThreadState) (messageId : Nat) : ThreadState :=
  { st with
    messages := updateAt st.messages messageId
      (fun m => { m with offerStatus := some "declined" }) }

/-! ### Reactions -/

/-- `toggleReaction(threadId, messageId, userId, reaction)`:
`update(msgRef, { ["reactions." + userId]: reaction })`. -/
def toggleReaction (st : ThreadState) (messageId : Nat) (userId : String)
    (reaction : Option String) : ThreadState :=
  { st with
    messages := updateAt st.messages messageId
      (fun m => { m with reactions := setKey m.reactions userId reaction }) }

/-- `removeReaction(threadId, messageId, userId)`:
`update(msgRef, { ["reactions." + userId]: null })`. -/
def removeReaction (st : ThreadState) (messageId : Nat) (userId : String) :
    ThreadState :=
  { st with
    messages := updateAt st.messages messageId
      (fun m => { m with reactions := setKey m.reactions userId none }) }

/-! ### Withdrawal -/

/-- `canWithdrawMessage(createdAt)`: `false` on a missing (or `0`, JS-falsy)
timestamp, otherwise `Date.now() - ts <= 180000`.  `now` stands for
`Date.now()`. -/
def canWithdrawMessage (now : Int) (createdAt : Option Int) : Bool :=
  match createdAt with
  | none => false
  | some ts => if ts = 0 then false else decide (now - ts ≤ 180000)

/-- `withdrawMessage(threadId, messageId)`: clears the message and stamps the
thread preview.  The two `updateDoc`s touch only the listed fields. -/
def withdrawMessage (st : ThreadState) (messageId : Nat) : ThreadState :=
  { thread := st.thread.map (fun d => { d with lastMessage := "Message withdrawn" }),
    messages := updateAt st.messages messageId
      (fun m => { m with withdrawn := true, text := some "", photoUrl := some "" }) }

/-! ### Thread store: `getOrCreateThread` -/

/-- Interface `ThreadContext` in `api.ts`. -/
structure ThreadContext where
  itemId : String
  itemName : String
  sellerId : String
  buyerId : String
  sellerName : String
  sellerInitials : String
  buyerName : String
  buyerInitials : String
  deriving Repr, DecidableEq

/-- The collections `getOrCreateThread` can reach: the `chats` collection,
the per-thread `messages` subcollections (never touched by it), and the
`messagesCount` field of the `listings` collection. -/
structure ChatStore where
  chats : List (String × ChatThread)
  chatMessages : List (String × List ChatMessage)
  listings : List (String × Nat)
  deriving Repr, DecidableEq

/-- The document written by `setDoc` on thread creation: the spread `...ctx`
plus `threadId`, `participants`, empty preview, fresh timestamp and zero
unread counters for both participants (JS computed-key object literal:
second key overwrites the first when the two ids coincide). -/
def newThreadDoc (ctx : ThreadContext) (threadId : String) (now : Nat) :
    ChatThread :=
  { threadId := threadId
    itemId := ctx.itemId
    itemName := ctx.itemName
    participants := [ctx.buyerId, ctx.sellerId]
    buyerId := ctx.buyerId
    sellerId := ctx.sellerId
    buyerName := ctx.buyerName
    sellerName := ctx.sellerName
    buyerInitials := ctx.buyerInitials
    sellerInitials := ctx.sellerInitials
    lastMessage := ""
    timestamp := now
    unread := setKey (setKey [] ctx.buyerId 0) ctx.sellerId 0 }

/-- `const baseId = makeThreadId(buyerId, sellerId); const threadId = baseId + "_" + itemId`. -/
def threadIdOf (ctx : ThreadContext) : String :=
  makeThreadId ctx.buyerId ctx.sellerId ++ "_" ++ ctx.itemId

/-- `getOrCreateThread(ctx)`: derives the thread id, creates the document
with zeroed counters when absent (then best-effort bumps the listing's
`messagesCount`, swallowing a missing listing), otherwise refreshes only
`itemId`, `itemName` and `timestamp`.  Returns the thread id. -/
def getOrCreateThread (ctx : ThreadContext) (store : ChatStore) (now : Nat) :
    String × ChatStore :=
  match getKey store.chats (threadIdOf ctx) with
  | none =>
    (threadIdOf ctx,
      { chats := setKey store.chats (threadIdOf ctx)
          (newThreadDoc ctx (threadIdOf ctx) now)
        chatMessages := store.chatMessages
        listings :=
          match getKey store.listings ctx.itemId with
          | none => store.listings
          | some n => setKey store.listings ctx.itemId (n + 1) })
  | some d =>
    (threadIdOf ctx,
      { store with
        chats := setKey store.chats (threadIdOf ctx)
          { d with itemId := ctx.itemId, itemName := ctx.itemName,
                   timestamp := now } })

/-! ### Thread list subscription: preview derivation -/

/-- The sanitized per-thread summary delivered by `subscribeToThreads` to its
callback (and consumed by the notification detector). -/
structure ThreadView where
  id : String
  threadId : String
  lastMessage : String
  timestamp : Nat
  unread : List (String × Nat)
  partnerName : String
  partnerInitials : String
  deriving Repr, DecidableEq

/-- The mapping `subscribeToThreads` applies to each thread document of a
snapshot: derive the partner's display data from the \"other\" participant
and blank the preview when it is exactly `"Message withdrawn"` and every
participant's unread count is 0. -/
def toThreadView (userId : String) (docId : String) (data : ChatThread) :
    ThreadView :=
  let other := data.participants.find? (fun p => p != userId)
  let partnerName :=
    if other = some data.sellerId then data.sellerName else data.buyerName
  let partnerInitials :=
    if other = some data.sellerId then data.sellerInitials else data.buyerInitials
  let preview := data.lastMessage
  let isEmpty :=
    decide (preview = "Message withdrawn") &&
      (data.unread.map Prod.snd).all (fun x => x == 0)
  { id := docId
    threadId := data.threadId
    lastMessage := if isEmpty then "" else preview
    timestamp := data.timestamp
    unread := data.unread
    partnerName := partnerName
    partnerInitials := partnerInitials }

/-- One emission of `subscribeToThreads(userId, callback)`: every stored
thread document of the query result, sanitized. -/
def subscribeToThreadsView (userId : String)
    (docs : List (String × ChatThread)) : List ThreadView :=
  docs.map (fun p => toThreadView userId p.1 p.2)

/-! ### Notification detector (`useMessageNotifications.ts`) -/

/-- `getUnreadCount(thread, userId)`: `thread.unread?.[userId] ?? 0`. -/
def getUnreadCount (t : ThreadView) (userId : String) : Nat :=
  getKeyD t.unread userId 0

/-- `formatTitle(thread)`: `"New message from <partnerName>"` or the generic
fallback when `partnerName` is falsy. -/
def formatTitle (t : ThreadView) : String :=
  if t.partnerName = "" then "New message"
  else "New message from " ++ t.partnerName

/-- The payload handed to `showToast`. -/
structure Toast where
  title : String
  message : String
  deriving Repr, DecidableEq

/-- The mutable cells of the hook that the snapshot callback reads and
writes: `hydratedRef` and `previousUnreadRef`. -/
structure NotifState where
  hydrated : Bool
  prev : List (String × Nat)
  deriving Repr, DecidableEq

/-- `const key = thread.threadId || thread.id; if (!key) return;` -/
def keyOf (t : ThreadView) : Option String :=
  if t.threadId ≠ "" then some t.threadId
  else if t.id ≠ "" then some t.id
  else none

/-- The timestamp gate
`!lastMessageTimestamp || lastMessageTimestamp >= lastEnabledRef.current`
(a missing/zero timestamp is JS-falsy and passes). -/
def tsOk (lastEnabled : Nat) (t : ThreadView) : Bool :=
  (t.timestamp == 0) || (lastEnabled ≤ t.timestamp)

/-- The toast a live-update thread produces, if any, relative to the baseline
map `prev0`: fires iff the unread count strictly exceeds the recorded
baseline, the preview is non-empty, and the timestamp gate passes. -/
def fireOn (uid : String) (lastEnabled : Nat) (prev0 : List (String × Nat))
    (t : ThreadView) : Option Toast :=
  match keyOf t with
  | none => none
  | some k =>
    if (decide (getKeyD prev0 k 0 < getUnreadCount t uid) &&
        decide (t.lastMessage ≠ "") && tsOk lastEnabled t) = true then
      some ⟨formatTitle t, t.lastMessage⟩
    else none

/-- Per-thread body of the live-update loop: decide the toast against the
current baseline, then unconditionally record the new unread value. -/
def notifStep (uid : String) (lastEnabled : Nat)
    (acc : NotifState × List Toast) (t : ThreadView) : NotifState × List Toast :=
  match keyOf t with
  | none => acc
  | some k =>
    let unread := getUnreadCount t uid
    let previous := getKeyD acc.1.prev k 0
    let fire := decide (previous < unread) && decide (t.lastMessage ≠ "") &&
      tsOk lastEnabled t
    ({ acc.1 with prev := setKey acc.1.prev k unread },
     if fire = true then acc.2 ++ [⟨formatTitle t, t.lastMessage⟩] else acc.2)

/-- Per-thread body of the hydration loop: record the baseline, fire nothing. -/
def hydrateStep (uid : String) (p : List (String × Nat)) (t : ThreadView) :
    List (String × Nat) :=
  match keyOf t with
  | none => p
  | some k => setKey p k (getUnreadCount t uid)

/-- One invocation of the `subscribeToThreads` callback inside
`useMessageNotifications`: the first (hydration) snapshot records baselines
and fires nothing; every later snapshot walks the threads, tests each against
its baseline and updates the baseline whether or not a toast fired.  Returns
the new ref state and the toasts shown, in order. -/
def processSnapshot (uid : String) (lastEnabled : Nat) (st : NotifState)
    (threads : List ThreadView) : NotifState × List Toast :=
  if st.hydrated = false then
    ({ hydrated := true, prev := threads.foldl (hydrateStep uid) st.prev }, [])
  else
    threads.foldl (notifStep uid lastEnabled) (st, [])

/-! ### Concrete documents used to instantiate the theorems -/

/-- A two-participant thread `alice`/`bob` over item `i`. -/
def exThread : ChatThread :=
  { threadId := "alice_bob_i"
    itemId := "i"
    itemName := "lamp"
    participants := ["alice", "bob"]
    buyerId := "alice"
    sellerId := "bob"
    buyerName := "Alice"
    sellerName := "Bob"
    buyerInitials := "A"
    sellerInitials := "B"
    lastMessage := ""
    timestamp := 0
    unread := [("alice", 0), ("bob", 2)] }

/-- A plain text message from `alice`. -/
def exTextMsg : ChatMessage :=
  { senderId := "alice", text := some "hey", createdAt := some 3,
    withdrawn := false }

/-- An offer message from `alice` that has already been accepted. -/
def exAcceptedOffer : ChatMessage :=
  { senderId := "alice", type := some "offer", amount := some 50,
    offerStatus := some "accepted", createdAt := some 5, withdrawn := false }

/-- `exThread` after a withdrawal that everyone has read. -/
def exWithdrawnReadThread : ChatThread :=
  { exThread with
    lastMessage := "Message withdrawn"
    unread := [("alice", 0), ("bob", 0)] }

/-- `exThread` after a withdrawal with one unread count still positive. -/
def exWithdrawnUnreadThread : ChatThread :=
  { exThread with
    lastMessage := "Message withdrawn"
    unread := [("alice", 0), ("bob", 1)] }

/-- A thread summary for user `u` whose unread count rose to 1 but whose
last-activity timestamp (50) predates the moment notifications were enabled. -/
def exStaleView : ThreadView :=
  { id := "t", threadId := "t", lastMessage := "hi", timestamp := 50,
    unread := [("u", 1)], partnerName := "Bob", partnerInitials := "B" }

/-- The same summary with a timestamp after notifications were enabled. -/
def exFreshView : ThreadView :=
  { exStaleView with timestamp := 150 }

end BadgerSwap

namespace BadgerSwap

/-! ## Map and list lemmas -/

theorem getKey_setKey_self {α : Type} (m : List (String × α)) (k : String) (v : α) :
    getKey (setKey m k v) k = some v := by
  induction m with
  | nil => simp [setKey, getKey]
  | cons hd tl ih =>
    obtain ⟨k', v'⟩ := hd
    by_cases h : k' = k
    · simp [setKey, getKey, h]
    · simp [setKey, getKey, h, ih]

theorem getKey_setKey_ne {α : Type} (m : List (String × α)) (k k' : String) (v : α)
    (h : k' ≠ k) : getKey (setKey m k v) k' = getKey m k' := by
  have h2 : ¬ (k = k') := fun e => h e.symm
  induction m with
  | nil => simp [setKey, getKey, h2]
  | cons hd tl ih =>
    obtain ⟨k₀, v₀⟩ := hd
    by_cases h0 : k₀ = k
    · subst h0
      simp [setKey, getKey, h2]
    · simp [setKey, getKey, h0, ih]

theorem setKey_keys_of_mem {α : Type} (m : List (String × α)) (k : String) (v : α)
    (h : (getKey m k).isSome) :
    (setKey m k v).map Prod.fst = m.map Prod.fst := by
  induction m with
  | nil => simp [getKey] at h
  | cons hd tl ih =>
    obtain ⟨k₀, v₀⟩ := hd
    by_cases h0 : k₀ = k
    · simp [setKey, h0]
    · simp [getKey, h0] at h
      simp [setKey, getKey, h0, ih h]

theorem updateAt_length {α : Type} (l : List α) (i : Nat) (f : α → α) :
    (updateAt l i f).length = l.length := by
  induction l generalizing i with
  | nil => rfl
  | cons x xs ih =>
    cases i with
    | zero => rfl
    | succ n => simp [updateAt, ih]

theorem updateAt_getElem_self {α : Type} (l : List α) (i : Nat) (f : α → α) :
    (updateAt l i f)[i]? = (l[i]?).map f := by
  induction l generalizing i with
  | nil => rfl
  | cons x xs ih =>
    cases i with
    | zero => simp [updateAt]
    | succ n => simpa [updateAt] using ih n

/-! ## Unfolding lemmas for the send operations -/

theorem sendMessage_some (d : ChatThread) (msgs : List ChatMessage)
    (sender text : String) (recip : Option String) (now : Nat) (other : String)
    (htext : jsTrim text ≠ "")
    (hro : resolveOther recip d.participants sender = some other) :
    sendMessage ⟨some d, msgs⟩ sender text recip now =
      ⟨some { d with
          lastMessage := text,
          timestamp := now,
          unread := setKey d.unread other (getKeyD d.unread other 0 + 1) },
       msgs ++ [{ senderId := sender, text := some text, createdAt := some now,
                  withdrawn := false }]⟩ := by
  simp [sendMessage, htext, hro]

theorem sendOffer_some (d : ChatThread) (msgs : List ChatMessage)
    (sender : String) (amount : Int) (recip : Option String) (now : Nat)
    (other : String)
    (hro : resolveOther recip d.participants sender = some other) :
    sendOffer ⟨some d, msgs⟩ sender amount recip now =
      ⟨some { d with
          lastMessage := "Offer: $" ++ toString amount,
          timestamp := now,
          unread := setKey d.unread other (getKeyD d.unread other 0 + 1) },
       msgs ++ [{ senderId := sender, type := some "offer", amount := some amount,
                  offerStatus := some "pending", createdAt := some now,
                  withdrawn := false }]⟩ := by
  simp [sendOffer, hro]

theorem resolveOther_pair (a b sender : String) (hab : a ≠ b) (ha : a ≠ "")
    (hb : b ≠ "") (hs : sender = a ∨ sender = b) :
    resolveOther none [a, b] sender = some (if sender = a then b else a) := by
  rcases hs with h | h
  · subst h
    have h1 : (b != sender) = true := by
      simpa [bne_iff_ne] using fun e => hab e.symm
    simp [resolveOther, List.find?, h1, hb]
  · subst h
    have h1 : (a != sender) = true := by simpa [bne_iff_ne] using hab
    have hsa : ¬ sender = a := fun e => hab e.symm
    simp [resolveOther, List.find?, h1, ha, hsa]

/-! ## `getOrCreateThread` lemmas -/

theorem getOrCreateThread_fst (ctx : ThreadContext) (s : ChatStore) (n : Nat) :
    (getOrCreateThread ctx s n).1 = threadIdOf ctx := by
  cases h : getKey s.chats (threadIdOf ctx) <;> simp [getOrCreateThread, h]

theorem getOrCreateThread_chatMessages (ctx : ThreadContext) (s : ChatStore)
    (n : Nat) : (getOrCreateThread ctx s n).2.chatMessages = s.chatMessages := by
  cases h : getKey s.chats (threadIdOf ctx) <;> simp [getOrCreateThread, h]

theorem getOrCreateThread_creates (ctx : ThreadContext) (s : ChatStore) (n : Nat) :
    ∃ d, getKey (getOrCreateThread ctx s n).2.chats (threadIdOf ctx) = some d := by
  cases h : getKey s.chats (threadIdOf ctx) with
  | none =>
    exact ⟨newThreadDoc ctx (threadIdOf ctx) n,
      by simp [getOrCreateThread, h, getKey_setKey_self]⟩
  | some d =>
    exact ⟨{ d with
        itemId := ctx.itemId,
        itemName := ctx.itemName,
        timestamp := n },
      by simp [getOrCreateThread, h, getKey_setKey_self]⟩

theorem getOrCreateThread_of_mem (ctx : ThreadContext) (s : ChatStore) (n : Nat)
    (d : ChatThread) (h : getKey s.chats (threadIdOf ctx) = some d) :
    getOrCreateThread ctx s n =
      (threadIdOf ctx,
       { s with
         chats := setKey s.chats (threadIdOf ctx)
           { d with itemId := ctx.itemId, itemName := ctx.itemName,
                    timestamp := n } }) := by
  simp [getOrCreateThread, h]

/-! ## Notification detector lemmas -/

theorem foldl_notifStep_prev_stable (uid : String) (le : Nat)
    (threads : List ThreadView) :
    ∀ (acc : NotifState × List Toast) (k : String),
    (∀ t ∈ threads, keyOf t ≠ some k) →
    getKey (threads.foldl (notifStep uid le) acc).1.prev k =
      getKey acc.1.prev k := by
  induction threads with
  | nil => intro acc k h; rfl
  | cons t rest ih =>
    intro acc k h
    have hk : keyOf t ≠ some k := h t (List.mem_cons_self t rest)
    rw [List.foldl_cons, ih _ k (fun t' ht' => h t' (List.mem_cons_of_mem t ht'))]
    cases hko : keyOf t with
    | none => simp [notifStep, hko]
    | some k' =>
      have hne : k' ≠ k := fun e => hk (by rw [hko, e])
      simp [notifStep, hko, getKey_setKey_ne _ _ _ _ (Ne.symm hne)]

theorem foldl_notifStep_spec (uid : String) (le : Nat)
    (prev0 : List (String × Nat)) :
    ∀ (threads : List ThreadView) (st : NotifState) (ts : List Toast),
    st.hydrated = true →
    (∀ t ∈ threads, ∀ k, keyOf t = some k →
      getKeyD st.prev k 0 = getKeyD prev0 k 0) →
    ((threads.map keyOf).Nodup) →
    (threads.foldl (notifStep uid le) (st, ts)).2 =
      ts ++ threads.filterMap (fireOn uid le prev0) ∧
    (threads.foldl (notifStep uid le) (st, ts)).1.hydrated = true ∧
    (∀ t ∈ threads, ∀ k, keyOf t = some k →
      getKey (threads.foldl (notifStep uid le) (st, ts)).1.prev k =
        some (getUnreadCount t uid)) := by
  intro threads
  induction threads with
  | nil =>
    intro st ts hhyd _ _
    exact ⟨by simp, hhyd, by simp⟩
  | cons t rest ih =>
    intro st ts hhyd hagree hnodup
    have hnd : (∀ x ∈ rest, ¬ keyOf x = keyOf t) ∧ (rest.map keyOf).Nodup := by
      simpa using hnodup
    cases hko : keyOf t with
    | none =>
      have hstep : notifStep uid le (st, ts) t = (st, ts) := by
        simp [notifStep, hko]
      have hfire : fireOn uid le prev0 t = none := by simp [fireOn, hko]
      rw [List.foldl_cons, hstep, List.filterMap_cons, hfire]
      have hrest := ih st ts hhyd
        (fun t' ht' => hagree t' (List.mem_cons_of_mem t ht'))
        hnd.2
      refine ⟨hrest.1, hrest.2.1, ?_⟩
      intro t' ht' k hk
      rcases List.mem_cons.mp ht' with rfl | ht'
      · rw [hko] at hk; cases hk
      · exact hrest.2.2 t' ht' k hk
    | some k0 =>
      have hag := hagree t (List.mem_cons_self t rest) k0 hko
      have hknotin : ∀ t' ∈ rest, keyOf t' ≠ some k0 := by
        intro t' ht' he
        exact hnd.1 t' ht' (he.trans hko.symm)
      have hstep : notifStep uid le (st, ts) t =
          ({ st with prev := setKey st.prev k0 (getUnreadCount t uid) },
           if (decide (getKeyD prev0 k0 0 < getUnreadCount t uid) &&
               decide (t.lastMessage ≠ "") && tsOk le t) = true then
             ts ++ [⟨formatTitle t, t.lastMessage⟩]
           else ts) := by
        simp [notifStep, hko, hag]
      have hfire : fireOn uid le prev0 t =
          (if (decide (getKeyD prev0 k0 0 < getUnreadCount t uid) &&
               decide (t.lastMessage ≠ "") && tsOk le t) = true then
             some ⟨formatTitle t, t.lastMessage⟩
           else none) := by
        simp [fireOn, hko]
      have hagree' : ∀ t' ∈ rest, ∀ k, keyOf t' = some k →
          getKeyD (setKey st.prev k0 (getUnreadCount t uid)) k 0 =
            getKeyD prev0 k 0 := by
        intro t' ht' k hk
        have hkne : k ≠ k0 := by
          intro e
          exact hknotin t' ht' (by rw [hk, e])
        rw [getKeyD, getKey_setKey_ne _ _ _ _ hkne]
        exact hagree t' (List.mem_cons_of_mem t ht') k hk
      have hrest := ih { st with prev := setKey st.prev k0 (getUnreadCount t uid) }
        (if (decide (getKeyD prev0 k0 0 < getUnreadCount t uid) &&
             decide (t.lastMessage ≠ "") && tsOk le t) = true then
           ts ++ [⟨formatTitle t, t.lastMessage⟩]
         else ts)
        hhyd hagree' hnd.2
      rw [List.foldl_cons, hstep, List.filterMap_cons, hfire]
      refine ⟨?_, hrest.2.1, ?_⟩
      · rw [hrest.1]
        by_cases hc : (decide (getKeyD prev0 k0 0 < getUnreadCount t uid) &&
            decide (t.lastMessage ≠ "") && tsOk le t) = true
        · rw [if_pos hc, if_pos hc]
          simp
        · rw [if_neg hc, if_neg hc]
      · intro t' ht' k hk
        rcases List.mem_cons.mp ht' with rfl | ht'
        · rw [hko] at hk
          cases hk
          rw [foldl_notifStep_prev_stable uid le rest _ k0 hknotin]
          exact getKey_setKey_self _ _ _
        · exact hrest.2.2 t' ht' k hk

theorem foldl_hydrateStep_stable (uid : String) (threads : List ThreadView) :
    ∀ (p : List (String × Nat)) (k : String),
    (∀ t ∈ threads, keyOf t ≠ some k) →
    getKey (threads.foldl (hydrateStep uid) p) k = getKey p k := by
  induction threads with
  | nil => intro p k h; rfl
  | cons t rest ih =>
    intro p k h
    have hk : keyOf t ≠ some k := h t (List.mem_cons_self t rest)
    rw [List.foldl_cons, ih _ k (fun t' ht' => h t' (List.mem_cons_of_mem t ht'))]
    cases hko : keyOf t with
    | none => simp [hydrateStep, hko]
    | some k' =>
      have hne : k' ≠ k := fun e => hk (by rw [hko, e])
      simp [hydrateStep, hko, getKey_setKey_ne _ _ _ _ (Ne.symm hne)]

theorem foldl_hydrateStep_spec (uid : String) :
    ∀ (threads : List ThreadView) (p : List (String × Nat)),
    ((threads.map keyOf).Nodup) →
    ∀ t ∈ threads, ∀ k, keyOf t = some k →
      getKey (threads.foldl (hydrateStep uid) p) k =
        some (getUnreadCount t uid) := by
  intro threads
  induction threads with
  | nil => intro p _ t ht; cases ht
  | cons t rest ih =>
    intro p hnodup t' ht' k hk
    have hnd : (∀ x ∈ rest, ¬ keyOf x = keyOf t) ∧ (rest.map keyOf).Nodup := by
      simpa using hnodup
    rw [List.foldl_cons]
    rcases List.mem_cons.mp ht' with rfl | ht'
    · have hknotin : ∀ u ∈ rest, keyOf u ≠ some k := by
        intro u hu he
        exact hnd.1 u hu (he.trans hk.symm)
      rw [foldl_hydrateStep_stable uid rest _ k hknotin]
      simp [hydrateStep, hk, getKey_setKey_self]
    · exact ih _ hnd.2 t' ht' k hk

/-! ## Claim theorems -/

/-- **C9.** `makeThreadId` is symmetric in its two participant ids, and both
orders yield the lexicographically smaller id, `"_"`, then the larger id. -/
theorem makeThreadId_comm_min_max (A B : String) :
    makeThreadId A B = makeThreadId B A ∧
    makeThreadId A B = min A B ++ "_" ++ max A B := by
  unfold makeThreadId
  rcases lt_trichotomy A B with h | h | h
  · have h' : ¬ B < A := asymm h
    simp [h, h', min_eq_left h.le, max_eq_right h.le]
  · subst h
    simp
  · have h' : ¬ A < B := asymm h
    simp [h, h', min_eq_right h.le, max_eq_left h.le]

/-- **C10.** `toggleReaction` with a `null` reaction token is exactly
`removeReaction`: both write `null` into that user's slot of the message's
reactions map and change nothing else. -/
theorem toggleReaction_null_eq_removeReaction (st : ThreadState) (messageId : Nat)
    (userId : String) :
    toggleReaction st messageId userId none = removeReaction st messageId userId := rfl

/-- **C6.** For any real clock value (`now` past the 3-minute mark, as
`Date.now()` always is), `canWithdrawMessage` returns `true` iff the message
has a creation timestamp with `now - createdAt ≤ 180000` ms; in particular it
is `true` at a difference of 179999 ms, `false` at 180001 ms, and `false` when
`createdAt` is missing. -/
theorem canWithdrawMessage_iff (now : Int) (createdAt : Option Int)
    (hnow : 180000 < now) :
    canWithdrawMessage now createdAt = true ↔
      ∃ ts, createdAt = some ts ∧ now - ts ≤ 180000 := by
  cases createdAt with
  | none => simp [canWithdrawMessage]
  | some ts =>
    by_cases h0 : ts = 0
    · subst h0
      simp [canWithdrawMessage]
      omega
    · simp [canWithdrawMessage, h0]

/-- Witness for C6: at `now = 1000000`, the window accepts a message created
179999 ms ago and rejects one created 180001 ms ago or missing. -/
theorem canWithdrawMessage_iff_witness :
    (canWithdrawMessage 1000000 (some 820001) = true) ∧
    (canWithdrawMessage 1000000 (some 819999) = false) ∧
    (canWithdrawMessage 1000000 none = false) := by
  refine ⟨?_, ?_, ?_⟩
  · exact (canWithdrawMessage_iff 1000000 (some 820001) (by norm_num)).mpr
      ⟨820001, rfl, by norm_num⟩
  · by_contra h
    have h' := (canWithdrawMessage_iff 1000000 (some 819999) (by norm_num)).mp
      (by revert h; decide)
    obtain ⟨ts, hts, hle⟩ := h'
    cases hts
    omega
  · decide

/-- **C4.** On an existing thread with two distinct participants carrying
unread entries, `sendMessage` with text that is non-empty after trimming
appends exactly one message (`withdrawn=false`, the given text and sender),
sets the thread's `lastMessage` to that text, bumps the recipient's unread
counter by exactly 1 and leaves the sender's unchanged. -/
theorem sendMessage_spec (d : ChatThread) (msgs : List ChatMessage)
    (a b sender text : String) (now ua ub : Nat)
    (hpart : d.participants = [a, b]) (hab : a ≠ b) (ha : a ≠ "") (hb : b ≠ "")
    (hs : sender = a ∨ sender = b)
    (hua : getKey d.unread a = some ua) (hub : getKey d.unread b = some ub)
    (htext : jsTrim text ≠ "") :
    (sendMessage ⟨some d, msgs⟩ sender text none now).messages =
      msgs ++ [{ senderId := sender, text := some text, createdAt := some now,
                 withdrawn := false }] ∧
    (sendMessage ⟨some d, msgs⟩ sender text none now).messages.length =
      msgs.length + 1 ∧
    ∃ d', (sendMessage ⟨some d, msgs⟩ sender text none now).thread = some d' ∧
      d'.lastMessage = text ∧
      getKey d'.unread (if sender = a then b else a) =
        some ((if sender = a then ub else ua) + 1) ∧
      getKey d'.unread sender = getKey d.unread sender := by
  have hro := resolveOther_pair a b sender hab ha hb hs
  rw [← hpart] at hro
  rw [sendMessage_some d msgs sender text none now _ htext hro]
  rcases hs with hcase | hcase
  · rw [if_pos hcase, if_pos hcase]
    refine ⟨rfl, by simp, ?_⟩
    refine ⟨_, rfl, rfl, ?_, ?_⟩
    · simp [getKey_setKey_self, getKeyD, hub]
    · rw [hcase]
      exact getKey_setKey_ne d.unread b a _ hab
  · have hsa : ¬ sender = a := fun e => hab (e.symm.trans hcase)
    rw [if_neg hsa, if_neg hsa]
    refine ⟨rfl, by simp, ?_⟩
    refine ⟨_, rfl, rfl, ?_, ?_⟩
    · simp [getKey_setKey_self, getKeyD, hua]
    · rw [hcase]
      exact getKey_setKey_ne d.unread a b _ (fun e => hab e.symm)

/-- Witness for C4: a concrete send on thread `alice`/`bob` appends the
message. -/
theorem sendMessage_spec_witness :
    (sendMessage ⟨some exThread, []⟩ "alice" "hi" none 7).messages.length =
      0 + 1 := by
  have h := sendMessage_spec exThread [] "alice" "bob" "alice" "hi" 7 0 2
    rfl (by decide) (by decide) (by decide) (Or.inl rfl) (by decide) (by decide)
    (by decide)
  exact h.2.1

/-- **C5.** `withdrawMessage` leaves the message with `withdrawn=true`,
`text=""` and `photoUrl=""`, sets the thread's `lastMessage` to
`"Message withdrawn"`, and leaves the unread map (both participants'
counters) untouched. -/
theorem withdrawMessage_spec (d : ChatThread) (msgs : List ChatMessage)
    (i : Nat) (m : ChatMessage) (hm : msgs[i]? = some m) :
    ((withdrawMessage ⟨some d, msgs⟩ i).messages)[i]? =
      some { m with withdrawn := true, text := some "", photoUrl := some "" } ∧
    (withdrawMessage ⟨some d, msgs⟩ i).thread =
      some { d with lastMessage := "Message withdrawn" } ∧
    ({ d with lastMessage := "Message withdrawn" } : ChatThread).unread =
      d.unread := by
  refine ⟨?_, rfl, rfl⟩
  rw [withdrawMessage]
  simp [updateAt_getElem_self, hm]

/-- **C7.** Calling `getOrCreateThread` twice with the same context returns
the same thread id both times and creates no second document (the set of
thread ids in the store is unchanged by the second call); the second call
maps the stored document `d₁` to `d₁` with only `itemId`, `itemName` and
`timestamp` refreshed — in particular the unread counters and the message
subcollections are exactly as they were after the first call. -/
theorem getOrCreateThread_idempotent (ctx : ThreadContext) (store : ChatStore)
    (now1 now2 : Nat) :
    (getOrCreateThread ctx (getOrCreateThread ctx store now1).2 now2).1 =
      (getOrCreateThread ctx store now1).1 ∧
    ((getOrCreateThread ctx (getOrCreateThread ctx store now1).2 now2).2.chats).map
        Prod.fst =
      ((getOrCreateThread ctx store now1).2.chats).map Prod.fst ∧
    (∃ d1,
      getKey (getOrCreateThread ctx store now1).2.chats (threadIdOf ctx) =
        some d1 ∧
      getKey (getOrCreateThread ctx (getOrCreateThread ctx store now1).2
          now2).2.chats (threadIdOf ctx) =
        some { d1 with itemId := ctx.itemId, itemName := ctx.itemName,
                       timestamp := now2 } ∧
      ({ d1 with itemId := ctx.itemId, itemName := ctx.itemName,
                 timestamp := now2 } : ChatThread).unread = d1.unread) ∧
    (getOrCreateThread ctx (getOrCreateThread ctx store now1).2 now2).2.chatMessages =
      (getOrCreateThread ctx store now1).2.chatMessages := by
  obtain ⟨d1, hd1⟩ := getOrCreateThread_creates ctx store now1
  rw [getOrCreateThread_of_mem ctx _ now2 d1 hd1]
  refine ⟨?_, ?_, ⟨d1, hd1, ?_, rfl⟩, ?_⟩
  · rw [getOrCreateThread_fst]
  · exact setKey_keys_of_mem _ _ _ (by rw [hd1]; rfl)
  · exact getKey_setKey_self _ _ _
  · rfl

/-- **C1 (code bug).** The source enforces no forward-only transition on
offer messages: `declineOffer` on a message whose `offerStatus` is already
`"accepted"` overwrites the terminal status with `"declined"`, and
`acceptOffer` likewise overwrites `"declined"` with `"accepted"`. -/
theorem declineOffer_overwrites_accepted :
    exAcceptedOffer.offerStatus = some "accepted" ∧
    ((declineOffer ⟨some exThread, [exAcceptedOffer]⟩ 0).messages)[0]? =
      some { exAcceptedOffer with offerStatus := some "declined" } ∧
    ((acceptOffer ⟨some exThread,
        [{ exAcceptedOffer with offerStatus := some "declined" }]⟩ 0
        "alice" 50 9).messages)[0]? =
      some { exAcceptedOffer with offerStatus := some "accepted" } := by
  refine ⟨rfl, rfl, rfl⟩

/-- **C3 (counterexample).** `sendOffer` with the non-positive amount `-5` on
an existing thread is not a no-op: a message is appended and the thread
document changes. -/
theorem sendOffer_nonpositive_counterexample :
    ((-5 : Int) ≤ 0) ∧
    (sendOffer ⟨some exThread, []⟩ "alice" (-5) none 7).messages.length = 1 ∧
    (sendOffer ⟨some exThread, []⟩ "alice" (-5) none 7).thread ≠
      some exThread := by
  refine ⟨by norm_num, rfl, by decide⟩

/-- **C3 (amended).** `sendOffer` performs no amount validation: for every
amount, non-positive included, it appends one pending offer message carrying
that amount and updates the thread's preview to `"Offer: $<amount>"`, bumps
the recipient's unread counter by exactly 1 and leaves the sender's
unchanged. -/
theorem sendOffer_spec (d : ChatThread) (msgs : List ChatMessage)
    (a b sender : String) (amount : Int) (now ua ub : Nat)
    (hpart : d.participants = [a, b]) (hab : a ≠ b) (ha : a ≠ "") (hb : b ≠ "")
    (hs : sender = a ∨ sender = b)
    (hua : getKey d.unread a = some ua) (hub : getKey d.unread b = some ub) :
    (sendOffer ⟨some d, msgs⟩ sender amount none now).messages =
      msgs ++ [{ senderId := sender, type := some "offer", amount := some amount,
                 offerStatus := some "pending", createdAt := some now,
                 withdrawn := false }] ∧
    ∃ d', (sendOffer ⟨some d, msgs⟩ sender amount none now).thread = some d' ∧
      d'.lastMessage = "Offer: $" ++ toString amount ∧
      getKey d'.unread (if sender = a then b else a) =
        some ((if sender = a then ub else ua) + 1) ∧
      getKey d'.unread sender = getKey d.unread sender := by
  have hro := resolveOther_pair a b sender hab ha hb hs
  rw [← hpart] at hro
  rw [sendOffer_some d msgs sender amount none now _ hro]
  rcases hs with hcase | hcase
  · rw [if_pos hcase, if_pos hcase]
    refine ⟨rfl, ?_⟩
    refine ⟨_, rfl, rfl, ?_, ?_⟩
    · simp [getKey_setKey_self, getKeyD, hub]
    · rw [hcase]
      exact getKey_setKey_ne d.unread b a _ hab
  · have hsa : ¬ sender = a := fun e => hab (e.symm.trans hcase)
    rw [if_neg hsa, if_neg hsa]
    refine ⟨rfl, ?_⟩
    refine ⟨_, rfl, rfl, ?_, ?_⟩
    · simp [getKey_setKey_self, getKeyD, hua]
    · rw [hcase]
      exact getKey_setKey_ne d.unread a b _ (fun e => hab e.symm)

/-- Witness for the amended C3: the non-positive amount `-5` really is
appended. -/
theorem sendOffer_spec_witness :
    (sendOffer ⟨some exThread, []⟩ "alice" (-5) none 7).messages =
      [{ senderId := "alice", type := some "offer", amount := some (-5),
         offerStatus := some "pending", createdAt := some 7,
         withdrawn := false }] := by
  have h := sendOffer_spec exThread [] "alice" "bob" "alice" (-5) 7 0 2
    rfl (by decide) (by decide) (by decide) (Or.inl rfl) (by decide) (by decide)
  simpa using h.1

/-- **C8.** The view delivered by `subscribeToThreads` blanks the preview of
a thread whose stored `lastMessage` is exactly `"Message withdrawn"` and all
of whose unread counts are 0; if any unread count is positive, the literal
`"Message withdrawn"` preview is delivered unchanged. -/
theorem subscribeToThreads_preview_sanitization (userId docId : String)
    (data : ChatThread) :
    ((data.lastMessage = "Message withdrawn" ∧ ∀ p ∈ data.unread, p.2 = 0) →
      (toThreadView userId docId data).lastMessage = "") ∧
    ((data.lastMessage = "Message withdrawn" ∧ ∃ p ∈ data.unread, 0 < p.2) →
      (toThreadView userId docId data).lastMessage = "Message withdrawn") := by
  constructor
  · rintro ⟨hlm, hz⟩
    have hall : ((data.unread.map Prod.snd).all (fun x => x == 0)) = true := by
      rw [List.all_eq_true]
      intro x hx
      rw [List.mem_map] at hx
      obtain ⟨p, hp, rfl⟩ := hx
      simpa using hz p hp
    simp [toThreadView, hlm, hall]
  · rintro ⟨hlm, p, hp, hpos⟩
    have hall : ((data.unread.map Prod.snd).all (fun x => x == 0)) = false := by
      rw [List.all_eq_false]
      refine ⟨p.2, List.mem_map_of_mem _ hp, ?_⟩
      simp
      omega
    simp [toThreadView, hlm, hall]

/-- Witness for C8: the fully-read withdrawn thread renders `""`; the same
thread with `bob`'s count at 1 renders the literal preview. -/
theorem subscribeToThreads_preview_sanitization_witness :
    (toThreadView "alice" "t" exWithdrawnReadThread).lastMessage = "" ∧
    (toThreadView "alice" "t" exWithdrawnUnreadThread).lastMessage =
      "Message withdrawn" := by
  constructor
  · exact (subscribeToThreads_preview_sanitization "alice" "t"
      exWithdrawnReadThread).1 ⟨rfl, by decide⟩
  · exact (subscribeToThreads_preview_sanitization "alice" "t"
      exWithdrawnUnreadThread).2 ⟨rfl, ("bob", 1), by decide, by decide⟩

/-- Witness for C5: withdrawing the only message of a concrete thread. -/
theorem withdrawMessage_spec_witness :
    ((withdrawMessage ⟨some exThread, [exTextMsg]⟩ 0).messages)[0]? =
      some { senderId := "alice", text := some "", createdAt := some 3,
             photoUrl := some "", withdrawn := true } := by
  have h := withdrawMessage_spec exThread [exTextMsg] 0 exTextMsg rfl
  exact h.1

/-- **C2 (counterexample).** A hydrated detector state with baseline 0 for
thread `"t"`, fed a snapshot in which that thread's unread count rose to 1
with the non-empty preview `"hi"`, fires NO toast, because the thread's
timestamp (50) is non-zero and predates `lastEnabled` (100) — the claim
predicts exactly one toast with message `"hi"`. -/
theorem notifications_timestamp_counterexample :
    getUnreadCount exStaleView "u" = 1 ∧
    getKeyD [("t", (0 : Nat))] "t" 0 = 0 ∧
    exStaleView.lastMessage ≠ "" ∧
    (processSnapshot "u" 100 ⟨true, [("t", 0)]⟩ [exStaleView]).2 = [] := by
  refine ⟨rfl, rfl, by decide, rfl⟩

/-- **C2 (amended).** For a fixed user, the first snapshot after subscribing
fires no toast and records each (keyed) thread's unread count as its
baseline; on every later snapshot the fired toasts are, in order, exactly one
toast per thread whose unread count strictly exceeds its recorded baseline,
whose preview is non-empty AND whose last-activity timestamp is absent/zero
or not earlier than the moment notifications were last enabled — the toast's
`message` being that preview — and every thread's baseline is updated to its
new unread value whether or not a toast fired. -/
theorem useMessageNotifications_spec (uid : String) (lastEnabled : Nat)
    (st : NotifState) (threads : List ThreadView)
    (hnodup : (threads.map keyOf).Nodup) :
    (st.hydrated = false →
      (processSnapshot uid lastEnabled st threads).2 = [] ∧
      (processSnapshot uid lastEnabled st threads).1.hydrated = true ∧
      ∀ t ∈ threads, ∀ k, keyOf t = some k →
        getKey (processSnapshot uid lastEnabled st threads).1.prev k =
          some (getUnreadCount t uid)) ∧
    (st.hydrated = true →
      (processSnapshot uid lastEnabled st threads).2 =
        threads.filterMap (fireOn uid lastEnabled st.prev) ∧
      (processSnapshot uid lastEnabled st threads).1.hydrated = true ∧
      ∀ t ∈ threads, ∀ k, keyOf t = some k →
        getKey (processSnapshot uid lastEnabled st threads).1.prev k =
          some (getUnreadCount t uid)) := by
  constructor
  · intro hh
    rw [processSnapshot, if_pos hh]
    refine ⟨rfl, rfl, ?_⟩
    intro t ht k hk
    exact foldl_hydrateStep_spec uid threads st.prev hnodup t ht k hk
  · intro hh
    have hfalse : ¬ (st.hydrated = false) := by simp [hh]
    rw [processSnapshot, if_neg hfalse]
    have h := foldl_notifStep_spec uid lastEnabled st.prev threads st [] hh
      (fun t ht k hk => rfl) hnodup
    exact ⟨by simpa using h.1, h.2.1, h.2.2⟩

/-- Witness for the amended C2: with `lastEnabled = 100`, the same rising
thread with timestamp 150 fires exactly one toast carrying the preview. -/
theorem useMessageNotifications_spec_witness :
    (processSnapshot "u" 100 ⟨true, [("t", 0)]⟩ [exFreshView]).2 =
      [⟨"New message from Bob", "hi"⟩] := by
  have h := useMessageNotifications_spec "u" 100 ⟨true, [("t", 0)]⟩
    [exFreshView] (by decide)
  rw [(h.2 rfl).1]
  decide

end BadgerSwap
